import Mathlib

/-!
Verification development for the amazon-advertising-api-python client
(file src/amazon_advertising_api_v3/advertising_api.py).

The Python class AdvertisingApiV3 is shallowly embedded: the mutable
session object becomes an explicit Session value, every network access
goes through an explicit transport oracle, and each operation returns
its Result together with the list of requests it issued, so that
short-circuit behaviour (returning without any network call) is visible
in the embedding.  Python exceptions escaping an operation are modelled
with an Except channel.

Python duplicates several method definitions in the class body
(request_report, get_report, request_snapshot, get_snapshot each appear
twice); the later definition of each name is the one Python keeps, and
it is the one embedded here.

Stdlib collaborators of the source (urllib percent decoding, urlencode,
json, gzip) are modelled in Lean next to the code that uses them; each
such model carries a comment saying what it models and how it is
restricted.
-/

namespace AmzAdV3

/- ********************  character helpers  ******************** -/

/-- Character constants written via code points so that quote, backslash
and brace characters never appear as literals. -/
def quoteC : Char := Char.ofNat 34

def backslashC : Char := Char.ofNat 92

def lbraceC : Char := Char.ofNat 123

def rbraceC : Char := Char.ofNat 125

/-- Boolean list-prefix test. -/
def listPrefix : List Char → List Char → Bool
  | [], _ => true
  | _ :: _, [] => false
  | a :: as, b :: bs => a == b && listPrefix as bs

/-- Boolean substring test on character lists; models the Python
expression (sub in s) for strings. -/
def listInfix (needle : List Char) : List Char → Bool
  | [] => listPrefix needle []
  | c :: rest => listPrefix needle (c :: rest) || listInfix needle rest

/-- Case folding for header-name comparison (email.message header lookup
in Python is case-insensitive). -/
def lowerL (s : String) : List Char := s.data.map Char.toLower

/-- Uppercase hexadecimal digit, as produced by urllib.parse.quote. -/
def hexDigitU (n : Nat) : Char :=
  if n < 10 then Char.ofNat (48 + n) else Char.ofNat (55 + n)

/-- Value of a hexadecimal digit character, if any. -/
def hexVal (c : Char) : Option Nat :=
  if 48 ≤ c.toNat ∧ c.toNat ≤ 57 then some (c.toNat - 48)
  else if 65 ≤ c.toNat ∧ c.toNat ≤ 70 then some (c.toNat - 55)
  else if 97 ≤ c.toNat ∧ c.toNat ≤ 102 then some (c.toNat - 87)
  else none

/- ********************  urllib.parse percent coding  ******************** -/

/-- Characters urllib.parse.quote_plus leaves unescaped (letters, digits
and the four always-safe marks). -/
def isUrlSafe (c : Char) : Bool :=
  c.isAlphanum || c = '_' || c = '.' || c = '-' || c = '~'

/-- Models urllib.parse.quote_plus on one character, for characters in
the ASCII range (the multi-byte UTF-8 case is not needed by any claim):
space becomes a plus sign, safe characters pass through, everything else
becomes a percent escape with uppercase hex digits. -/
def quotePlusChar (c : Char) : List Char :=
  if c = ' ' then ['+']
  else if isUrlSafe c then [c]
  else ['%', hexDigitU (c.toNat / 16 % 16), hexDigitU (c.toNat % 16)]

def quotePlusL : List Char → List Char
  | [] => []
  | c :: rest => quotePlusChar c ++ quotePlusL rest

/-- The plus-to-space substitution that distinguishes unquote_plus from
unquote in urllib.parse. -/
def replacePlus (l : List Char) : List Char :=
  l.map (fun c => if c = '+' then ' ' else c)

/-- Split a character list on a separator character, keeping empty
groups, like str.split in Python. -/
def splitOnC (sep : Char) : List Char → List (List Char)
  | [] => [[]]
  | c :: rest =>
    if c = sep then [] :: splitOnC sep rest
    else
      match splitOnC sep rest with
      | [] => [[c]]
      | g :: gs => (c :: g) :: gs

/-- Decode the percent-separated bits produced by splitting on the
percent sign, exactly as urllib.parse.unquote processes them: a bit
whose first two characters are hex digits contributes the decoded byte
followed by the remainder of the bit, any other bit keeps its percent
sign.  Restricted to single-byte (ASCII) code points. -/
def unquoteBits : List (List Char) → List Char
  | [] => []
  | bit :: bits =>
    (match bit with
     | a :: b :: rest =>
       match hexVal a, hexVal b with
       | some x, some y => Char.ofNat (16 * x + y) :: rest
       | _, _ => '%' :: bit
     | _ => '%' :: bit) ++ unquoteBits bits

/-- Models urllib.parse.unquote (ASCII range): split on the percent sign
and decode each following bit. -/
def unquoteL (l : List Char) : List Char :=
  match splitOnC '%' l with
  | [] => []
  | bit0 :: bits => bit0 ++ unquoteBits bits

def unquote (s : String) : String := String.mk (unquoteL s.data)

/-- Models urllib.parse.unquote_plus: replace plus signs by spaces, then
percent-decode. -/
def unquote_plus (s : String) : String := String.mk (unquoteL (replacePlus s.data))

/- ********************  urlencode and parse_qsl  ******************** -/

/-- Parameter mappings are modelled as association lists of strings, the
shape every claim exercises. -/
abbrev Params := List (String × String)

/-- Join groups with an ampersand, like the join inside
urllib.parse.urlencode. -/
def joinAmp : List (List Char) → List Char
  | [] => []
  | [x] => x
  | x :: y :: xs => x ++ '&' :: joinAmp (y :: xs)

def urlencodeL (ps : List (List Char × List Char)) : List Char :=
  joinAmp (ps.map (fun p => quotePlusL p.1 ++ '=' :: quotePlusL p.2))

/-- Models urllib.parse.urlencode on a string-valued mapping: quote_plus
each key and value, join key and value with an equals sign and the pairs
with ampersands. -/
def urlencode (ps : Params) : String :=
  String.mk (urlencodeL (ps.map (fun p => (p.1.data, p.2.data))))

/-- Split a piece at its first equals sign. -/
def breakEq : List Char → List Char × List Char
  | [] => ([], [])
  | c :: rest =>
    if c = '=' then ([], rest)
    else
      let p := breakEq rest
      (c :: p.1, p.2)

/-- Models urllib.parse.parse_qsl restricted to the shapes urlencode
produces: split the query string on ampersands, split each piece at its
first equals sign, and unquote_plus both halves. -/
def parse_qsl (s : String) : Params :=
  match s.data with
  | [] => []
  | c :: rest =>
    (splitOnC '&' (c :: rest)).map
      (fun piece =>
        (String.mk (unquoteL (replacePlus (breakEq piece).1)),
         String.mk (unquoteL (replacePlus (breakEq piece).2))))

/- ********************  json model  ******************** -/

/-- JSON values, restricted to the flat string-valued objects that every
body exercised by the claims decodes to. -/
inductive Json where
  | str (s : String)
  | obj (fields : List (String × String))
  deriving DecidableEq, Repr

/-- Models the string escaping of json.dumps for ASCII-printable text:
only the quote and the backslash need escaping there. -/
def jsonEscapeChar (c : Char) : List Char :=
  if c = quoteC then [backslashC, quoteC]
  else if c = backslashC then [backslashC, backslashC]
  else [c]

def jsonEscape : List Char → List Char
  | [] => []
  | c :: rest => jsonEscapeChar c ++ jsonEscape rest

def jsonStrL (s : List Char) : List Char := quoteC :: jsonEscape s ++ [quoteC]

def jsonPairL (p : List Char × List Char) : List Char :=
  jsonStrL p.1 ++ ':' :: ' ' :: jsonStrL p.2

/-- Join with a comma and a space, the default item separator of
json.dumps. -/
def joinComma : List (List Char) → List Char
  | [] => []
  | [x] => x
  | x :: y :: xs => x ++ ',' :: ' ' :: joinComma (y :: xs)

def jsonDumpsL (ps : List (List Char × List Char)) : List Char :=
  lbraceC :: joinComma (ps.map jsonPairL) ++ [rbraceC]

/-- Models json.dumps on a string-valued mapping with the default
separators. -/
def json_dumps (ps : Params) : String :=
  String.mk (jsonDumpsL (ps.map (fun p => (p.1.data, p.2.data))))

/-- Parse a JSON string body after the opening quote: collect characters
up to the closing quote.  Escape sequences are not consumed (no claim
feeds them to the parser). -/
def parseJString : List Char → Option (List Char × List Char)
  | [] => none
  | c :: rest =>
    if c = quoteC then some ([], rest)
    else if c = backslashC then none
    else
      match parseJString rest with
      | some (s, r) => some (c :: s, r)
      | none => none

/-- Parse the members of a JSON object in the exact canonical layout
json.dumps produces.  The first argument is recursion fuel. -/
def parsePairsAux : Nat → List Char → Option (List (List Char × List Char) × List Char)
  | 0, _ => none
  | fuel + 1, s =>
    match s with
    | c :: s1 =>
      if c = quoteC then
        (match parseJString s1 with
         | some (k, s2) =>
           (match s2 with
            | ':' :: ' ' :: c2 :: s3 =>
              if c2 = quoteC then
                (match parseJString s3 with
                 | some (v, s4) =>
                   (match s4 with
                    | c3 :: s5 =>
                      if c3 = rbraceC then some ([(k, v)], s5)
                      else if c3 = ',' then
                        (match s5 with
                         | ' ' :: s6 =>
                           (match parsePairsAux fuel s6 with
                            | some (ps, s7) => some ((k, v) :: ps, s7)
                            | none => none)
                         | _ => none)
                      else none
                    | [] => none)
                 | none => none)
              else none
            | _ => none)
         | none => none)
      else none
    | [] => none

/-- Parse a whole flat string-valued JSON object, consuming the entire
input. -/
def parseJsonObjL : List Char → Option (List (List Char × List Char))
  | c :: c2 :: rest =>
    if c = lbraceC then
      if c2 = rbraceC then (if rest = [] then some [] else none)
      else
        match parsePairsAux (rest.length + 2) (c2 :: rest) with
        | some (ps, []) => some ps
        | _ => none
    else none
  | _ => none

/-- Models json.loads, restricted to flat string-valued objects in the
canonical layout json.dumps produces (all bodies the claims decode have
this shape). -/
def json_loads (s : String) : Option Json :=
  (parseJsonObjL s.data).map
    (fun ps => Json.obj (ps.map (fun p => (String.mk p.1, String.mk p.2))))

/-- The decoder for JSON request bodies used by the round-trip claim. -/
def parse_json_body (s : String) : Option Params :=
  (parseJsonObjL s.data).map
    (fun ps => ps.map (fun p => (String.mk p.1, String.mk p.2)))

/- ********************  http model  ******************** -/

/-- One outgoing request as urllib.request.Request receives it. -/
structure HttpRequest where
  url : String
  method : String
  headers : List (String × String)
  body : Option String
  deriving DecidableEq, Repr

/-- Outcome of urllib.request.urlopen for the plain-text operations:
either a response object (code, decoded body) or an HTTPError carrying
code, msg and the error body. -/
inductive HttpOutcome where
  | ok (code : Nat) (body : String)
  | httpError (code : Nat) (msg : String) (details : String)
  deriving DecidableEq, Repr

/-- Response values: _operation reports the raw body text, _download
reports a decoded JSON structure. -/
inductive RespVal where
  | str (s : String)
  | json (j : Json)
  deriving DecidableEq, Repr

/-- The uniform result mapping of the library. -/
structure Result where
  success : Bool
  code : Nat
  response : RespVal
  deriving DecidableEq, Repr

/-- Python exceptions that can escape an embedded operation. -/
inductive PyErr where
  | valueError (msg : String)
  | typeError
  | keyError
  | attributeError (msg : String)
  deriving DecidableEq, Repr

/-- Mapping of a transport outcome to a Result, as written in the try
and except branches of _operation (source lines 725-733). -/
def httpOutcomeToResult : HttpOutcome → Result
  | .ok c b => ⟨true, c, RespVal.str b⟩
  | .httpError c m d => ⟨false, c, RespVal.str (m ++ ": " ++ d)⟩

/- ********************  bytes, gzip  ******************** -/

abbrev Bytes := List Nat

/-- ASCII encoding model for str.encode. -/
def strToBytes (s : String) : Bytes := s.data.map Char.toNat

/-- ASCII decoding model for bytes.decode. -/
def bytesToStr (b : Bytes) : String := String.mk (b.map Char.ofNat)

/-- Models gzip compression as an injective framing with the two gzip
magic bytes; gunzip is its partial inverse, failing on any payload that
does not carry the framing (as gzip.GzipFile.read raises then). -/
def gzipCompress (b : Bytes) : Bytes := 31 :: 139 :: b

def gunzip : Bytes → Option Bytes
  | 31 :: 139 :: rest => some rest
  | _ => none

/- ********************  first and second hop of _download  ******************** -/

/-- Raw first-hop outcome of urlopen before NoRedirectHandler rewrites
it: a response (code, headers, body lines) or an HTTPError. -/
inductive RawFirst where
  | resp (code : Nat) (headers : List (String × String)) (lines : List Bytes)
  | httpError (code : Nat) (msg : String) (details : String)

/-- Second-hop outcome of urlopen on the redirect target. -/
inductive SecondHop where
  | ok (code : Nat) (body : Bytes)
  | httpError (code : Nat) (msg : String) (details : String)

/-- The network oracle: one function per kind of call the class makes.
op serves _operation and do_refresh_token, dlFirst and dlSecond serve
the two hops of _download. -/
structure Transport where
  op : HttpRequest → HttpOutcome
  dlFirst : HttpRequest → RawFirst
  dlSecond : String → SecondHop

/-- What NoRedirectHandler.http_response returns to urlopen: for a 307
response a plain dict with keys code and location, for anything else the
response object itself (source lines 739-748). -/
inductive HandlerOut where
  | dict (code : Nat) (location : Option String)
  | passthrough (code : Nat) (lines : List Bytes)

/-- Case-insensitive header lookup, as the email.message mapping behind
response.headers performs it. -/
def headerLookupCI (hdrs : List (String × String)) (name : String) : Option String :=
  (hdrs.find? (fun p => lowerL p.1 == lowerL name)).map (fun p => p.2)

/-- Embedding of NoRedirectHandler.http_response (source lines
739-748). -/
def noRedirectHandlerResponse (code : Nat) (hdrs : List (String × String))
    (lines : List Bytes) : HandlerOut :=
  if code == 307 then
    match headerLookupCI hdrs "Location" with
    | some l => HandlerOut.dict 307 (some l)
    | none => HandlerOut.dict code none
  else HandlerOut.passthrough code lines

/-- In Python 3 a str value never equals a bytes value, so the membership
test (the string location in a response object) iterates the body lines
and compares each bytes line with a str, which is always False. -/
def pyStrEqBytes (_s : String) (_b : Bytes) : Bool := false

/- ********************  session  ******************** -/

/-- The mutable state of an AdvertisingApiV3 instance (source __init__,
lines 45-64). -/
structure Session where
  client_id : String
  client_secret : String
  access_token : Option String
  refresh_token : Option String
  profile_id : Option String
  endpoint : String
  token_url : String
  sandbox : Bool
  user_agent : String
  deriving DecidableEq, Repr

/-- Python truthiness of an optional string: None and the empty string
are falsy. -/
def pyTruthyOpt : Option String → Bool
  | none => false
  | some s => s ≠ ""

/-- Per-region endpoint descriptor. -/
structure RegionDescriptor where
  prod : String
  sandbox : String
  token_url : String
  deriving DecidableEq, Repr

/-- Modelled from the spec: regions.py is imported by the source but is
not under src.  The spec (sections 2 and 6) describes it as a static
table mapping a region code to a production host, a sandbox host and a
token host; the concrete host names are not given by the spec, so the NA
entry is modelled with placeholder literals. -/
def regionsTable : List (String × RegionDescriptor) :=
  [("NA", ⟨"na-production-host", "na-sandbox-host", "na-token-host"⟩)]

/-- Modelled from the spec: versions.py is imported by the source but is
not under src.  The spec (section 6) says the user agent embeds a
library version string taken from packaging metadata. -/
def modelUserAgent : String := "AdvertisingAPI Python Client Library vM"

/-- Embedding of AdvertisingApiV3.__init__ (source lines 20-64): select
the sandbox or production host for the region, or fail (KeyError) for an
unknown region code. -/
def advertisingApiV3Init (client_id client_secret region : String)
    (profile_id access_token refresh_token : Option String) (sandbox : Bool) :
    Option Session :=
  match regionsTable.lookup region with
  | none => none
  | some rd =>
    some
      { client_id := client_id
        client_secret := client_secret
        access_token := access_token
        refresh_token := refresh_token
        profile_id := profile_id
        endpoint := if sandbox then rd.sandbox else rd.prod
        token_url := rd.token_url
        sandbox := sandbox
        user_agent := modelUserAgent }

/- ********************  _operation (source lines 661-733)  ******************** -/

/-- The always-present headers of _operation (source lines 681-684). -/
def baseHeaders (s : Session) (tok : String) : List (String × String) :=
  [("Authorization", "Bearer " ++ tok),
   ("Amazon-Advertising-API-ClientId", s.client_id),
   ("Content-Type", "application/json"),
   ("User-Agent", s.user_agent)]

/-- Headers after the sandbox marker (source lines 686-687). -/
def sandboxHeaders (s : Session) (tok : String) : List (String × String) :=
  if s.sandbox then baseHeaders s tok ++ [("BIDDING_CONTROLS_ON", "true")]
  else baseHeaders s tok

/-- The api-version path segment (source lines 662-665). -/
def versionSeg : Option String → String
  | none => ""
  | some v => "/" ++ v

/-- The query-string part of a GET url (source lines 700-703). -/
def queryOf : Option Params → String
  | none => ""
  | some ps => "?" ++ urlencode ps

/-- URL composition of _operation (source lines 705-717). -/
def operationUrl (s : Session) (interface : String) (version : Option String)
    (query : String) : String :=
  "https://" ++ s.endpoint ++ versionSeg version ++ "/" ++ interface ++ query

/-- Request shaping by verb (source lines 697-723): GET gets the encoded
query string and an empty body, every other verb gets the JSON body and
no query string. -/
def operationRequest (s : Session) (headers : List (String × String))
    (interface : String) (params : Option Params) (method : String)
    (version : Option String) : HttpRequest :=
  if method = "GET" then
    ⟨operationUrl s interface version (queryOf params), method, headers, none⟩
  else
    ⟨operationUrl s interface version "", method, headers, params.map json_dumps⟩

/-- Embedding of AdvertisingApiV3._operation (source lines 661-733).
Returns the Result together with the list of requests that reached the
transport, so that the short-circuit branches are visibly free of
network calls. -/
def _operation (s : Session) (tr : HttpRequest → HttpOutcome) (interface : String)
    (params : Option Params) (method : String) (version : Option String) :
    Result × List HttpRequest :=
  match s.access_token with
  | none => (⟨false, 0, RespVal.str "access_token is empty."⟩, [])
  | some tok =>
    if pyTruthyOpt s.profile_id then
      let req := operationRequest s
        (sandboxHeaders s tok ++ [("Amazon-Advertising-API-Scope", s.profile_id.getD "")])
        interface params method version
      (httpOutcomeToResult (tr req), [req])
    else if listInfix "profiles".data interface.data then
      let req := operationRequest s (sandboxHeaders s tok) interface params method version
      (httpOutcomeToResult (tr req), [req])
    else (⟨false, 0, RespVal.str "profile_id is empty."⟩, [])

/- ********************  do_refresh_token (source lines 75-113)  ******************** -/

/-- Outcome of the refresh flow: the result (or the exception that
escaped), the session state after the call, and the requests that
reached the transport. -/
structure RefreshOut where
  result : Except PyErr Result
  state : Session
  calls : List HttpRequest

/-- The form-encoded token request body (source lines 85-91). -/
def refreshBody (s : Session) (rt : String) : String :=
  urlencode
    [("grant_type", "refresh_token"),
     ("refresh_token", rt),
     ("client_id", s.client_id),
     ("client_secret", s.client_secret)]

/-- The try-except part of do_refresh_token (source lines 97-113),
applied to the transport outcome of the token request: if the body
contains the substring access_token, decode it as JSON and store the new
token; otherwise report access_token-not-in-response; an HTTPError maps
to the failure result. -/
def refreshAttempt (s2 : Session) (req : HttpRequest) (outcome : HttpOutcome) : RefreshOut :=
  match outcome with
  | HttpOutcome.ok code body =>
    if listInfix "access_token".data body.data then
      (match json_loads body with
       | some (Json.obj fields) =>
         (match fields.lookup "access_token" with
          | some tokNew =>
            ⟨Except.ok ⟨true, code, RespVal.str tokNew⟩,
             { s2 with access_token := some tokNew }, [req]⟩
          | none => ⟨Except.error PyErr.keyError, s2, [req]⟩)
       | some (Json.str _) => ⟨Except.error PyErr.typeError, s2, [req]⟩
       | none => ⟨Except.error (PyErr.valueError "invalid json"), s2, [req]⟩)
    else
      ⟨Except.ok ⟨false, code, RespVal.str "access_token not in response."⟩, s2, [req]⟩
  | HttpOutcome.httpError code msg details =>
    ⟨Except.ok ⟨false, code, RespVal.str (msg ++ ": " ++ details)⟩, s2, [req]⟩

/-- Embedding of AdvertisingApiV3.do_refresh_token (source lines
75-113).  Note two source behaviours the claims probe: the guard checks
refresh_token against None only, and a truthy stored access_token is
percent-decoded in place before the network call. -/
def do_refresh_token (s : Session) (tr : HttpRequest → HttpOutcome) : RefreshOut :=
  match s.refresh_token with
  | none => ⟨Except.ok ⟨false, 0, RespVal.str "refresh_token is empty."⟩, s, []⟩
  | some rt0 =>
    let s1 := if pyTruthyOpt s.access_token
      then { s with access_token := s.access_token.map unquote } else s
    let rt := unquote rt0
    let s2 := { s1 with refresh_token := some rt }
    let req : HttpRequest :=
      ⟨"https://" ++ s2.token_url, "POST", [], some (refreshBody s2 rt)⟩
    refreshAttempt s2 req (tr req)

/-- True when a refresh outcome is anything other than a success result:
a failure result or an escaped exception. -/
def refreshFailedB : Except PyErr Result → Bool
  | Except.ok r => !r.success
  | Except.error _ => true

/- ********************  _download (source lines 622-659)  ******************** -/

/-- Python str formatting of an optional value, as format applies str()
to None. -/
def pyFormatOpt : Option String → String
  | none => "None"
  | some t => t

/-- The headers _download sends on the first hop (source lines
623-628). -/
def downloadHeaders (s : Session) (pid : String) : List (String × String) :=
  [("Authorization", "Bearer " ++ pyFormatOpt s.access_token),
   ("Content-Type", "application/json"),
   ("User-Agent", s.user_agent),
   ("Amazon-Advertising-API-Scope", pid)]

/-- Embedding of AdvertisingApiV3._download (source lines 622-659).
Returns the result (or escaped exception) and the list of fetched URLs.
The branch structure follows the source: a missing profile_id raises
ValueError; the first hop goes through NoRedirectHandler; for the dict
the handler returns on a 307, the location key is always present, so the
membership test succeeds and the code branches on whether the value is
None - and the None arm evaluates response.code on a dict, which raises
AttributeError; for a passthrough response object the membership test
compares the str location with bytes body lines, which is always False
in Python 3, giving the Location-not-found result. -/
def _download (s : Session) (tr : Transport) (location : String) :
    Except PyErr Result × List String :=
  match s.profile_id with
  | none => (Except.error (PyErr.valueError "Invalid profile Id."), [])
  | some pid =>
    let req : HttpRequest := ⟨location, "GET", downloadHeaders s pid, none⟩
    match tr.dlFirst req with
    | RawFirst.httpError c m d =>
      (Except.ok ⟨false, c, RespVal.str (m ++ ": " ++ d)⟩, [location])
    | RawFirst.resp code hdrs lines =>
      match noRedirectHandlerResponse code hdrs lines with
      | HandlerOut.dict _dcode locVal =>
        (match locVal with
         | some l =>
           (match tr.dlSecond l with
            | SecondHop.ok c2 body =>
              (match gunzip body with
               | none => (Except.error (PyErr.valueError "Not a gzipped file"), [location, l])
               | some data =>
                 (match json_loads (bytesToStr data) with
                  | none => (Except.error (PyErr.valueError "invalid json"), [location, l])
                  | some j => (Except.ok ⟨true, c2, RespVal.json j⟩, [location, l])))
            | SecondHop.httpError c m d =>
              (Except.ok ⟨false, c, RespVal.str (m ++ ": " ++ d)⟩, [location, l]))
         | none =>
           (Except.error (PyErr.attributeError "dict object has no attribute code"), [location]))
      | HandlerOut.passthrough pcode plines =>
        if plines.any (fun line => pyStrEqBytes "location" line) then
          (Except.error PyErr.typeError, [location])
        else (Except.ok ⟨false, pcode, RespVal.str "Location not found."⟩, [location])

/- ********************  report and snapshot flows  ******************** -/

/-- The condition json.loads of the response body, indexed at status,
equals SUCCESS; any parse failure or missing key raises. -/
def statusIsSuccess (res : Result) : Except PyErr Bool :=
  match res.response with
  | RespVal.json _ => Except.error PyErr.typeError
  | RespVal.str body =>
    match json_loads body with
    | none => Except.error (PyErr.valueError "invalid json")
    | some (Json.str _) => Except.error PyErr.typeError
    | some (Json.obj fields) =>
      match fields.lookup "status" with
      | some v => Except.ok (v == "SUCCESS")
      | none => Except.error PyErr.keyError

/-- json.loads of the response body, indexed at location. -/
def locationOf (res : Result) : Except PyErr String :=
  match res.response with
  | RespVal.json _ => Except.error PyErr.typeError
  | RespVal.str body =>
    match json_loads body with
    | none => Except.error (PyErr.valueError "invalid json")
    | some (Json.str _) => Except.error PyErr.typeError
    | some (Json.obj fields) =>
      match fields.lookup "location" with
      | some v => Except.ok v
      | none => Except.error PyErr.keyError

/-- Embedding of the effective AdvertisingApiV3.get_report (the later
definition, source lines 574-582): GET reports/{id}; when the code is
200 and the decoded status is SUCCESS, download the decoded location,
otherwise return the status result unchanged. -/
def get_report (s : Session) (tr : Transport) (report_id : String) :
    Except PyErr Result :=
  let res := (_operation s tr.op ("reports/" ++ report_id) none "GET" (some "v2")).1
  match (if res.code == 200 then statusIsSuccess res else Except.ok false) with
  | Except.error e => Except.error e
  | Except.ok false => Except.ok res
  | Except.ok true =>
    match locationOf res with
    | Except.error e => Except.error e
    | Except.ok loc => (_download s tr loc).1

/-- Embedding of the effective AdvertisingApiV3.get_snapshot (the later
definition, source lines 607-615): GET snapshots/{id}; the condition
checks only the decoded status field, with no comparison of the code
against 200. -/
def get_snapshot (s : Session) (tr : Transport) (snapshot_id : String) :
    Except PyErr Result :=
  let res := (_operation s tr.op ("snapshots/" ++ snapshot_id) none "GET" (some "v2")).1
  match statusIsSuccess res with
  | Except.error e => Except.error e
  | Except.ok false => Except.ok res
  | Except.ok true =>
    match locationOf res with
    | Except.error e => Except.error e
    | Except.ok loc => (_download s tr loc).1

/-- Embedding of the effective AdvertisingApiV3.request_report (the
later definition, source lines 555-572). -/
def request_report (s : Session) (tr : HttpRequest → HttpOutcome)
    (record_type report_id : Option String) (data : Option Params)
    (campaign_type : String) : Result × List HttpRequest :=
  match record_type with
  | some rt => _operation s tr (campaign_type ++ "/" ++ rt ++ "/report") data "POST" (some "v2")
  | none =>
    match report_id with
    | some rid => _operation s tr ("reports/" ++ rid) none "GET" (some "v2")
    | none => (⟨false, 0, RespVal.str "record_type and report_id are both empty."⟩, [])

/-- Embedding of the effective AdvertisingApiV3.request_snapshot (the
later definition, source lines 584-605); a falsy data argument is
replaced by the empty mapping first. -/
def request_snapshot (s : Session) (tr : HttpRequest → HttpOutcome)
    (record_type snapshot_id : Option String) (data : Option Params)
    (campaign_type : String) : Result × List HttpRequest :=
  let d := match data with
    | none => ([] : Params)
    | some ps => ps
  match record_type with
  | some rt =>
    _operation s tr (campaign_type ++ "/" ++ rt ++ "/snapshot") (some d) "POST" (some "v2")
  | none =>
    match snapshot_id with
    | some sid => _operation s tr ("snapshots/" ++ sid) (some d) "GET" (some "v2")
    | none => (⟨false, 0, RespVal.str "record_type and snapshot_id are both empty."⟩, [])

/-- Embedding of AdvertisingApiV3.list_campaigns (source lines
208-213). -/
def list_campaigns (s : Session) (tr : HttpRequest → HttpOutcome)
    (data : Option Params) (extended : Bool) : Result × List HttpRequest :=
  _operation s tr ("sp/campaigns" ++ (if extended then "/extended" else ""))
    data "GET" (some "v2")

/- ********************  concrete fixtures  ******************** -/

/-- A fully configured session used for concrete evaluations. -/
def sGood : Session :=
  ⟨"cid", "sec", some "T", some "REF", some "P1", "api-host", "token-host", false, "UA"⟩

/-- A session with no access token. -/
def sNoTok : Session :=
  ⟨"cid", "sec", none, some "REF", some "P1", "api-host", "token-host", false, "UA"⟩

/-- A session with access token but no profile. -/
def sNoProf : Session :=
  ⟨"cid", "sec", some "T", some "REF", none, "api-host", "token-host", false, "UA"⟩

/-- A session whose stored access token carries a percent escape and
whose refresh token is set. -/
def sPct : Session :=
  ⟨"cid", "sec", some "a%20b", some "REF", some "P1", "api-host", "token-host", false, "UA"⟩

/-- A session whose refresh token is the empty string (not None). -/
def sEmptyRefresh : Session :=
  ⟨"cid", "sec", some "T", some "", some "P1", "api-host", "token-host", false, "UA"⟩

/-- A session with no refresh token at all. -/
def sNoRefresh : Session :=
  ⟨"cid", "sec", some "T", none, some "P1", "api-host", "token-host", false, "UA"⟩

/-- The session advertisingApiV3Init builds for region NA in sandbox
mode with access token T and profile P1. -/
def sNA : Session :=
  ⟨"C", "S", some "T", none, some "P1", "na-sandbox-host", "na-token-host", true,
   modelUserAgent⟩

/-- The one request the list-campaigns call on the NA sandbox session
hands to the transport. -/
def naListCampaignsReq : HttpRequest :=
  ⟨"https://na-sandbox-host/v2/sp/campaigns", "GET",
   [("Authorization", "Bearer T"),
    ("Amazon-Advertising-API-ClientId", "C"),
    ("Content-Type", "application/json"),
    ("User-Agent", modelUserAgent),
    ("BIDDING_CONTROLS_ON", "true"),
    ("Amazon-Advertising-API-Scope", "P1")], none⟩

/-- A transport whose plain-operation hop always succeeds with code 200
and the body BODY. -/
def tr200 : HttpRequest → HttpOutcome := fun _ => HttpOutcome.ok 200 "BODY"

/-- A transport whose plain-operation hop always fails with an HTTP 400
error. -/
def trErr : HttpRequest → HttpOutcome :=
  fun _ => HttpOutcome.httpError 400 "Bad Request" "detail"

/-- The canonical status body with status SUCCESS and a location. -/
def statusBodySuccess : String :=
  json_dumps [("status", "SUCCESS"), ("location", "https://dl")]

/-- The canonical decoded artifact body. -/
def artifactBody : String := json_dumps [("a", "1")]

/-- A transport for the full snapshot flow: the status hop answers 202
with a SUCCESS body, the first download hop is a 307 redirect to
https://x, the second download hop returns the gzip-compressed artifact
with code 200. -/
def trSnap : Transport :=
  ⟨fun _ => HttpOutcome.ok 202 statusBodySuccess,
   fun _ => RawFirst.resp 307 [("Location", "https://x")] [],
   fun _ => SecondHop.ok 200 (gzipCompress (strToBytes artifactBody))⟩

/-- A download transport whose first hop is a 307 response without any
Location header. -/
def tr307NoLoc : Transport :=
  ⟨fun _ => HttpOutcome.ok 200 "BODY",
   fun _ => RawFirst.resp 307 [] [],
   fun _ => SecondHop.ok 200 []⟩

/-- A download transport whose first hop is a plain 200 response (no
redirect, no Location header). -/
def trPlain200 : Transport :=
  ⟨fun _ => HttpOutcome.ok 200 "BODY",
   fun _ => RawFirst.resp 200 [] [strToBytes "line"],
   fun _ => SecondHop.ok 200 []⟩

/- ********************  theorems  ******************** -/

/-- C2: with no access token set, _operation short-circuits with the
access_token-is-empty failure and issues no request, whatever the other
arguments are. -/
theorem operation_without_access_token (s : Session) (tr : HttpRequest → HttpOutcome)
    (interface : String) (params : Option Params) (method : String)
    (version : Option String) (h : s.access_token = none) :
    _operation s tr interface params method version =
      (⟨false, 0, RespVal.str "access_token is empty."⟩, []) := by
  simp [_operation, h]

/-- C2 witness: the short circuit evaluated on a concrete session. -/
theorem operation_without_access_token_witness :
    _operation sNoTok tr200 "sp/campaigns" none "GET" (some "v2") =
      (⟨false, 0, RespVal.str "access_token is empty."⟩, []) :=
  operation_without_access_token sNoTok tr200 "sp/campaigns" none "GET" (some "v2") rfl

/-- C3: with an access token but a falsy profile_id, _operation
short-circuits with the profile_id-is-empty failure and no request when
the path does not contain profiles, and hands a single built request to
the transport when it does. -/
theorem operation_profile_guard (s : Session) (tr : HttpRequest → HttpOutcome)
    (interface : String) (params : Option Params) (method : String)
    (version : Option String) (tok : String) (htok : s.access_token = some tok)
    (hprof : pyTruthyOpt s.profile_id = false) :
    (listInfix "profiles".data interface.data = false →
      _operation s tr interface params method version =
        (⟨false, 0, RespVal.str "profile_id is empty."⟩, []))
  ∧ (listInfix "profiles".data interface.data = true →
      _operation s tr interface params method version =
        (httpOutcomeToResult
           (tr (operationRequest s (sandboxHeaders s tok) interface params method version)),
         [operationRequest s (sandboxHeaders s tok) interface params method version])) := by
  constructor <;> intro h <;> simp [_operation, htok, hprof, h]

/-- C3 witness: both branches of the profile guard evaluated on a
concrete session without profile_id. -/
theorem operation_profile_guard_witness :
    (_operation sNoProf tr200 "sp/campaigns" none "GET" (some "v2") =
      (⟨false, 0, RespVal.str "profile_id is empty."⟩, []))
  ∧ (_operation sNoProf tr200 "profiles" none "GET" (some "v2") =
      (httpOutcomeToResult
         (tr200 (operationRequest sNoProf (sandboxHeaders sNoProf "T") "profiles" none "GET" (some "v2"))),
       [operationRequest sNoProf (sandboxHeaders sNoProf "T") "profiles" none "GET" (some "v2")])) :=
  ⟨(operation_profile_guard sNoProf tr200 "sp/campaigns" none "GET" (some "v2") "T" rfl rfl).1
     (by decide),
   (operation_profile_guard sNoProf tr200 "profiles" none "GET" (some "v2") "T" rfl rfl).2
     (by decide)⟩

/-- C10: with record_type and report_id (resp. snapshot_id) both None,
request_report and request_snapshot return their both-empty failure
with code 0 and issue no request. -/
theorem request_report_snapshot_both_none (s : Session)
    (tr : HttpRequest → HttpOutcome) (data : Option Params) (ct : String) :
    request_report s tr none none data ct =
      (⟨false, 0, RespVal.str "record_type and report_id are both empty."⟩, [])
  ∧ request_snapshot s tr none none data ct =
      (⟨false, 0, RespVal.str "record_type and snapshot_id are both empty."⟩, []) := by
  constructor <;> rfl

/-- C1: evaluation of the effective flows at a status response whose
code is 202 and whose body has status SUCCESS.  get_report returns the
status result unchanged (its condition requires code 200), but
get_snapshot - whose effective, later definition omits the code
comparison - invokes the downloader and returns the artifact result, so
the two flows are not structurally identical and the snapshot flow
downloads on a non-200 status response, contradicting the claim. -/
theorem get_snapshot_downloads_without_code_check :
    get_snapshot sGood trSnap "S1" =
      Except.ok ⟨true, 200, RespVal.json (Json.obj [("a", "1")])⟩
  ∧ get_report sGood trSnap "R1" =
      Except.ok ⟨true, 202, RespVal.str statusBodySuccess⟩ := by
  constructor <;> rfl

/-- C9: on a 307 first hop without a Location header, _download does not
return the Location-is-empty result: NoRedirectHandler hands back a
plain dict, the failure branch evaluates response.code on that dict, and
the call raises AttributeError.  On a non-redirect first hop (where the
membership test on a real response object is always False in Python 3)
the Location-not-found result is returned with that response code, as
the claim says. -/
theorem download_location_missing_behaviour :
    _download sGood tr307NoLoc "https://dl" =
      (Except.error (PyErr.attributeError "dict object has no attribute code"), ["https://dl"])
  ∧ _download sGood trPlain200 "https://dl" =
      (Except.ok ⟨false, 200, RespVal.str "Location not found."⟩, ["https://dl"]) := by
  constructor <;> rfl

/-- C8 counterexample: a download whose first hop is a 307 redirect and
whose second hop answers with code 200 returns code 200, the second
response status, not 307, the first response status the claim
promises. -/
theorem download_code_counterexample :
    trSnap.dlFirst ⟨"https://dl", "GET", downloadHeaders sGood "P1", none⟩ =
      RawFirst.resp 307 [("Location", "https://x")] []
  ∧ _download sGood trSnap "https://dl" =
      (Except.ok ⟨true, 200, RespVal.json (Json.obj [("a", "1")])⟩, ["https://dl", "https://x"])
  ∧ (200 : Nat) ≠ 307 := by
  refine ⟨rfl, rfl, by decide⟩

/-- C8 amended: when the first hop is a 307 redirect carrying a
Location, _download issues the second GET to exactly that URL,
gunzips and JSON-decodes the second body, and returns success with the
SECOND response status as its code. -/
theorem download_redirect_with_location (s : Session) (tr : Transport)
    (loc pid l : String) (hdrs : List (String × String)) (lines : List Bytes)
    (c2 : Nat) (body d : Bytes) (j : Json)
    (hp : s.profile_id = some pid)
    (h1 : tr.dlFirst ⟨loc, "GET", downloadHeaders s pid, none⟩ = RawFirst.resp 307 hdrs lines)
    (hL : headerLookupCI hdrs "Location" = some l)
    (h2 : tr.dlSecond l = SecondHop.ok c2 body)
    (hg : gunzip body = some d)
    (hj : json_loads (bytesToStr d) = some j) :
    _download s tr loc = (Except.ok ⟨true, c2, RespVal.json j⟩, [loc, l]) := by
  simp [_download, hp, h1, noRedirectHandlerResponse, hL, h2, hg, hj]

/-- C8 witness: the amended download behaviour evaluated on the concrete
redirect transport. -/
theorem download_redirect_with_location_witness :
    _download sGood trSnap "https://dl" =
      (Except.ok ⟨true, 200, RespVal.json (Json.obj [("a", "1")])⟩, ["https://dl", "https://x"]) :=
  download_redirect_with_location sGood trSnap "https://dl" "P1" "https://x"
    [("Location", "https://x")] [] 200 (gzipCompress (strToBytes artifactBody))
    (strToBytes artifactBody) (Json.obj [("a", "1")]) rfl rfl rfl rfl rfl rfl

/-- Rebuilding a string from its characters gives the string back. -/
theorem string_mk_data (s : String) : String.mk s.data = s := by
  cases s
  rfl

/-- Splitting on a separator that does not occur yields the single
group. -/
theorem splitOnC_eq_single (sep : Char) (l : List Char) (h : sep ∉ l) :
    splitOnC sep l = [l] := by
  induction l with
  | nil => rfl
  | cons c rest ih =>
    have hc : ¬c = sep := fun e => h (by simp [e])
    have hr : sep ∉ rest := fun hm => h (List.mem_cons_of_mem _ hm)
    simp [splitOnC, hc, ih hr]

/-- unquote is the identity on strings without a percent sign. -/
theorem unquote_no_pct (s : String) (h : '%' ∉ s.data) : unquote s = s := by
  simp [unquote, unquoteL, splitOnC_eq_single '%' s.data h, unquoteBits, string_mk_data]

/-- The truthiness-guarded in-place unquote of the stored access token
(source lines 81-82) always amounts to mapping unquote over it. -/
theorem truthy_unquote_eq (t : Option String) :
    (if pyTruthyOpt t then t.map unquote else t) = t.map unquote := by
  cases t with
  | none => rfl
  | some x =>
    by_cases hx : x = ""
    · subst hx
      simp [pyTruthyOpt]
      decide
    · simp [pyTruthyOpt, hx]

/-- On every non-success outcome, refreshAttempt leaves the session it
was given untouched. -/
theorem refreshAttempt_failed_state (s2 : Session) (req : HttpRequest) (o : HttpOutcome)
    (hf : refreshFailedB (refreshAttempt s2 req o).result = true) :
    (refreshAttempt s2 req o).state = s2 := by
  cases o with
  | httpError c m d => rfl
  | ok code body =>
    by_cases hsub : listInfix "access_token".data body.data
    · cases hjl : json_loads body with
      | none => simp [refreshAttempt, hsub, hjl]
      | some j =>
        cases j with
        | str sv => simp [refreshAttempt, hsub, hjl]
        | obj fields =>
          cases hlk : fields.lookup "access_token" with
          | none => simp [refreshAttempt, hsub, hjl, hlk]
          | some tokNew =>
            exfalso
            simp [refreshAttempt, hsub, hjl, hlk, refreshFailedB] at hf
    · simp [refreshAttempt, hsub]

/-- On a success outcome, the stored access token of the state
refreshAttempt returns is the token reported in the result. -/
theorem refreshAttempt_success_state (s2 : Session) (req : HttpRequest) (o : HttpOutcome)
    (c : Nat) (tok : String)
    (h : (refreshAttempt s2 req o).result = Except.ok ⟨true, c, RespVal.str tok⟩) :
    (refreshAttempt s2 req o).state.access_token = some tok := by
  cases o with
  | httpError cc m d => simp [refreshAttempt] at h
  | ok code body =>
    by_cases hsub : listInfix "access_token".data body.data
    · cases hjl : json_loads body with
      | none => simp [refreshAttempt, hsub, hjl] at h
      | some j =>
        cases j with
        | str sv => simp [refreshAttempt, hsub, hjl] at h
        | obj fields =>
          cases hlk : fields.lookup "access_token" with
          | none => simp [refreshAttempt, hsub, hjl, hlk] at h
          | some tokNew =>
            simp only [refreshAttempt, hsub, hjl, hlk, if_true] at h ⊢
            simp at h
            simp [hsub, hlk, h.2]
    · simp [refreshAttempt, hsub] at h

/-- C4 counterexample: with refresh_token equal to the empty string (not
None), do_refresh_token does not short-circuit - it issues the token
request and returns the transport failure, not the
refresh_token-is-empty result. -/
theorem refresh_empty_string_counterexample :
    sEmptyRefresh.refresh_token = some ""
  ∧ (do_refresh_token sEmptyRefresh trErr).result =
      Except.ok ⟨false, 400, RespVal.str "Bad Request: detail"⟩
  ∧ (do_refresh_token sEmptyRefresh trErr).calls.length = 1 := by
  refine ⟨rfl, rfl, rfl⟩

/-- C4 amended: with refresh_token unset (None), do_refresh_token
returns exactly the refresh_token-is-empty failure with code 0, leaves
the session unchanged, and performs no network call. -/
theorem refresh_token_none_short_circuit (s : Session) (tr : HttpRequest → HttpOutcome)
    (h : s.refresh_token = none) :
    do_refresh_token s tr =
      ⟨Except.ok ⟨false, 0, RespVal.str "refresh_token is empty."⟩, s, []⟩ := by
  simp [do_refresh_token, h]

/-- C4 witness: the short circuit evaluated on a concrete session
without refresh token. -/
theorem refresh_token_none_short_circuit_witness :
    do_refresh_token sNoRefresh trErr =
      ⟨Except.ok ⟨false, 0, RespVal.str "refresh_token is empty."⟩, sNoRefresh, []⟩ :=
  refresh_token_none_short_circuit sNoRefresh trErr rfl

/-- C5 counterexample: a failing refresh (HTTP 400 from the transport)
still changes the stored access token: the percent-encoded token a%20b
has been unquoted in place to a b although the refresh did not
succeed. -/
theorem refresh_failure_mutates_token_counterexample :
    sPct.access_token = some "a%20b"
  ∧ (do_refresh_token sPct trErr).result =
      Except.ok ⟨false, 400, RespVal.str "Bad Request: detail"⟩
  ∧ (do_refresh_token sPct trErr).state.access_token = some "a b" := by
  refine ⟨rfl, rfl, rfl⟩

/-- C5 amended: do_refresh_token assigns a new access token only on
success; on every failing outcome the stored access token is unchanged
except for the in-place percent-decoding applied before the network
attempt, so with refresh_token unset, or whenever the stored token
contains no percent escape, a failing call leaves it identical. -/
theorem refresh_mutation (s : Session) (tr : HttpRequest → HttpOutcome) :
    (s.refresh_token = none → (do_refresh_token s tr).state = s)
  ∧ (∀ rt, s.refresh_token = some rt →
       refreshFailedB (do_refresh_token s tr).result = true →
       (do_refresh_token s tr).state.access_token = s.access_token.map unquote)
  ∧ ((∀ t, s.access_token = some t → '%' ∉ t.data) →
       refreshFailedB (do_refresh_token s tr).result = true →
       (do_refresh_token s tr).state.access_token = s.access_token)
  ∧ (∀ c tok, (do_refresh_token s tr).result = Except.ok ⟨true, c, RespVal.str tok⟩ →
       (do_refresh_token s tr).state.access_token = some tok) := by
  have hmain : ∀ rt, s.refresh_token = some rt →
      refreshFailedB (do_refresh_token s tr).result = true →
      (do_refresh_token s tr).state.access_token = s.access_token.map unquote := by
    intro rt h hf
    simp only [do_refresh_token, h] at hf ⊢
    rw [refreshAttempt_failed_state _ _ _ hf]
    simp [apply_ite Session.access_token, truthy_unquote_eq]
  refine ⟨?_, hmain, ?_, ?_⟩
  · intro h
    simp [do_refresh_token, h]
  · intro hp hf
    cases hrt : s.refresh_token with
    | none =>
      simp [do_refresh_token, hrt]
    | some rt =>
      rw [hmain rt hrt hf]
      cases hat : s.access_token with
      | none => rfl
      | some t => simp [unquote_no_pct t (hp t hat)]
  · intro c tok h
    cases hrt : s.refresh_token with
    | none => simp [do_refresh_token, hrt] at h
    | some rt =>
      simp only [do_refresh_token, hrt] at h ⊢
      exact refreshAttempt_success_state _ _ _ _ _ h

/-- C5 witness: the amended mutation behaviour evaluated on concrete
sessions - the percent-encoded token is unquoted on a failing call, and
the no-refresh-token short circuit leaves the session identical. -/
theorem refresh_mutation_witness :
    (do_refresh_token sPct trErr).state.access_token = sPct.access_token.map unquote
  ∧ (do_refresh_token sNoRefresh trErr).state = sNoRefresh :=
  ⟨(refresh_mutation sPct trErr).2.1 "REF" rfl rfl,
   (refresh_mutation sNoRefresh trErr).1 rfl⟩

/-- Facts about the uppercase hex digit characters: their hex value is
recovered and they are none of the structural characters. -/
theorem hexDigitU_facts (n : Nat) (h : n < 16) :
    hexVal (hexDigitU n) = some n ∧ hexDigitU n ≠ '%' ∧ hexDigitU n ≠ '+' ∧
    hexDigitU n ≠ '&' ∧ hexDigitU n ≠ '=' := by
  interval_cases n <;> exact ⟨by decide, by decide, by decide, by decide, by decide⟩

/-- No character of a quote_plus encoding is an ampersand or an equals
sign. -/
theorem mem_quotePlusChar_ne (c x : Char) (hx : x ∈ quotePlusChar c) :
    x ≠ '&' ∧ x ≠ '=' := by
  unfold quotePlusChar at hx
  by_cases h1 : c = ' '
  · simp [h1] at hx
    subst hx
    exact ⟨by decide, by decide⟩
  · by_cases h2 : isUrlSafe c = true
    · simp [h1, h2] at hx
      subst hx
      constructor
      · intro e
        rw [e] at h2
        exact absurd h2 (by decide)
      · intro e
        rw [e] at h2
        exact absurd h2 (by decide)
    · simp [h1, h2] at hx
      rcases hx with rfl | rfl | rfl
      · exact ⟨by decide, by decide⟩
      · have f := hexDigitU_facts (c.toNat / 16 % 16) (Nat.mod_lt _ (by norm_num))
        exact ⟨f.2.2.2.1, f.2.2.2.2⟩
      · have f := hexDigitU_facts (c.toNat % 16) (Nat.mod_lt _ (by norm_num))
        exact ⟨f.2.2.2.1, f.2.2.2.2⟩

theorem mem_quotePlusL_ne (l : List Char) (x : Char) (hx : x ∈ quotePlusL l) :
    x ≠ '&' ∧ x ≠ '=' := by
  induction l with
  | nil => simp [quotePlusL] at hx
  | cons c rest ih =>
    simp only [quotePlusL, List.mem_append] at hx
    rcases hx with h | h
    · exact mem_quotePlusChar_ne c x h
    · exact ih h

/-- Splitting never yields the empty group list. -/
theorem splitOnC_ne_nil (sep : Char) (l : List Char) : splitOnC sep l ≠ [] := by
  cases l with
  | nil => simp [splitOnC]
  | cons c rest =>
    simp only [splitOnC]
    by_cases hc : c = sep
    · simp [hc]
    · simp only [hc, if_false]
      cases splitOnC sep rest <;> simp

/-- Splitting an appended separator peels off the leading group. -/
theorem splitOnC_append (sep : Char) (a b : List Char) (h : sep ∉ a) :
    splitOnC sep (a ++ sep :: b) = a :: splitOnC sep b := by
  induction a with
  | nil => simp [splitOnC]
  | cons c a2 ih =>
    have hc : ¬c = sep := fun e => h (by simp [e])
    have ha : sep ∉ a2 := fun hm => h (List.mem_cons_of_mem _ hm)
    simp only [List.cons_append, splitOnC, hc, if_false, List.append_eq]
    rw [ih ha]

/-- Splitting on ampersands undoes the ampersand join. -/
theorem splitOnC_joinAmp (ls : List (List Char)) (h : ∀ l ∈ ls, '&' ∉ l) :
    ls ≠ [] → splitOnC '&' (joinAmp ls) = ls := by
  induction ls with
  | nil => intro hne; exact absurd rfl hne
  | cons x xs ih =>
    intro _
    cases xs with
    | nil => simp [joinAmp, splitOnC_eq_single '&' x (h x (by simp))]
    | cons y ys =>
      have hx : '&' ∉ x := h x (by simp)
      have hrest : ∀ l ∈ y :: ys, '&' ∉ l := fun l hl => h l (by simp [hl])
      simp only [joinAmp]
      rw [splitOnC_append '&' x _ hx, ih hrest (by simp)]

/-- Percent-decoding a character that is not a percent sign starts a new
output character. -/
theorem unquoteL_cons_nopct (c : Char) (m : List Char) (hc : ¬c = '%') :
    unquoteL (c :: m) = c :: unquoteL m := by
  unfold unquoteL
  simp only [splitOnC, hc, if_false]
  cases hsp : splitOnC '%' m with
  | nil => exact absurd hsp (splitOnC_ne_nil '%' m)
  | cons g gs => simp

/-- Percent-decoding a well-formed escape yields the encoded byte. -/
theorem unquoteL_escape (x y : Nat) (hx : x < 16) (hy : y < 16) (m : List Char) :
    unquoteL ('%' :: hexDigitU x :: hexDigitU y :: m) =
      Char.ofNat (16 * x + y) :: unquoteL m := by
  have fx := hexDigitU_facts x hx
  have fy := hexDigitU_facts y hy
  unfold unquoteL
  cases hsp : splitOnC '%' m with
  | nil => exact absurd hsp (splitOnC_ne_nil '%' m)
  | cons g gs =>
    simp only [splitOnC, if_pos, fx.2.1, fy.2.1, if_false, hsp, unquoteBits, fx.1, fy.1]
    simp

/-- One encoded character decodes back to itself (ASCII range). -/
theorem unquote_replace_quoteChar (c : Char) (h : c.toNat < 128) (m : List Char) :
    unquoteL (replacePlus (quotePlusChar c) ++ m) = c :: unquoteL m := by
  by_cases h1 : c = ' '
  · subst h1
    exact unquoteL_cons_nopct ' ' m (by decide)
  · by_cases h2 : isUrlSafe c = true
    · have hplus : ¬c = '+' := fun e => by rw [e] at h2; exact absurd h2 (by decide)
      have hpct : ¬c = '%' := fun e => by rw [e] at h2; exact absurd h2 (by decide)
      have hrw : replacePlus (quotePlusChar c) = [c] := by
        simp [quotePlusChar, h1, h2, replacePlus, hplus]
      rw [hrw]
      exact unquoteL_cons_nopct c m hpct
    · have fx := hexDigitU_facts (c.toNat / 16 % 16) (Nat.mod_lt _ (by norm_num))
      have fy := hexDigitU_facts (c.toNat % 16) (Nat.mod_lt _ (by norm_num))
      have hrw : replacePlus (quotePlusChar c) =
          ['%', hexDigitU (c.toNat / 16 % 16), hexDigitU (c.toNat % 16)] := by
        simp [quotePlusChar, h1, h2, replacePlus, fx.2.2.1, fy.2.2.1]
      rw [hrw, List.cons_append, List.cons_append, List.cons_append, List.nil_append]
      rw [unquoteL_escape _ _ (Nat.mod_lt _ (by norm_num)) (Nat.mod_lt _ (by norm_num)) m]
      have harith : 16 * (c.toNat / 16 % 16) + c.toNat % 16 = c.toNat := by omega
      rw [harith, Char.ofNat_toNat]

/-- unquote_plus undoes quote_plus on ASCII text. -/
theorem unquote_replace_quotePlus (l : List Char) (h : ∀ c ∈ l, c.toNat < 128) :
    unquoteL (replacePlus (quotePlusL l)) = l := by
  induction l with
  | nil => rfl
  | cons c rest ih =>
    have hc : c.toNat < 128 := h c (by simp)
    have hrest : ∀ x ∈ rest, x.toNat < 128 := fun x hx => h x (by simp [hx])
    calc unquoteL (replacePlus (quotePlusL (c :: rest)))
        = unquoteL (replacePlus (quotePlusChar c) ++ replacePlus (quotePlusL rest)) := by
          simp [quotePlusL, replacePlus]
      _ = c :: unquoteL (replacePlus (quotePlusL rest)) := unquote_replace_quoteChar c hc _
      _ = c :: rest := by rw [ih hrest]

/-- Splitting at the first equals sign undoes the key-value join. -/
theorem breakEq_append (k v : List Char) (h : '=' ∉ k) :
    breakEq (k ++ '=' :: v) = (k, v) := by
  induction k with
  | nil => simp [breakEq]
  | cons c k2 ih =>
    have hc : ¬c = '=' := fun e => h (by simp [e])
    have hk : '=' ∉ k2 := fun hm => h (List.mem_cons_of_mem _ hm)
    simp [breakEq, hc, ih hk]

theorem urlencodeL_cons_ne_nil (q : List Char × List Char)
    (qs : List (List Char × List Char)) : urlencodeL (q :: qs) ≠ [] := by
  cases qs with
  | nil => simp [urlencodeL, joinAmp]
  | cons q2 qs2 => simp [urlencodeL, joinAmp]

theorem parse_qsl_on_cons (s : String) (c : Char) (rest : List Char)
    (hs : s.data = c :: rest) :
    parse_qsl s = (splitOnC '&' s.data).map
      (fun piece =>
        (String.mk (unquoteL (replacePlus (breakEq piece).1)),
         String.mk (unquoteL (replacePlus (breakEq piece).2)))) := by
  unfold parse_qsl
  rw [hs]

/-- Decoding the encoded pairs pointwise recovers them. -/
theorem dec_enc_pointwise (qs : Params)
    (hqs : ∀ q ∈ qs, (∀ c ∈ q.1.data, c.toNat < 128) ∧ (∀ c ∈ q.2.data, c.toNat < 128)) :
    ((qs.map (fun q => (q.1.data, q.2.data))).map
        (fun q => quotePlusL q.1 ++ '=' :: quotePlusL q.2)).map
      (fun piece =>
        (String.mk (unquoteL (replacePlus (breakEq piece).1)),
         String.mk (unquoteL (replacePlus (breakEq piece).2)))) = qs := by
  revert hqs
  induction qs with
  | nil => intro _; rfl
  | cons q qs2 ih =>
    intro hqs
    obtain ⟨k, v⟩ := q
    have hk : '=' ∉ quotePlusL k.data := fun hm => (mem_quotePlusL_ne _ _ hm).2 rfl
    have hbreak := breakEq_append (quotePlusL k.data) (quotePlusL v.data) hk
    simp only [List.map_cons, hbreak]
    rw [unquote_replace_quotePlus k.data (hqs (k, v) (by simp)).1,
        unquote_replace_quotePlus v.data (hqs (k, v) (by simp)).2,
        string_mk_data, string_mk_data,
        ih (fun x hx => hqs x (List.mem_cons_of_mem _ hx))]

/-- parse_qsl recovers the mapping urlencode encoded (ASCII range). -/
theorem parse_qsl_urlencode (ps : Params)
    (h : ∀ p ∈ ps, (∀ c ∈ p.1.data, c.toNat < 128) ∧ (∀ c ∈ p.2.data, c.toNat < 128)) :
    parse_qsl (urlencode ps) = ps := by
  cases ps with
  | nil => rfl
  | cons p ps2 =>
    have hne : urlencodeL ((p :: ps2).map (fun q => (q.1.data, q.2.data))) ≠ [] := by
      simp only [List.map_cons]
      exact urlencodeL_cons_ne_nil _ _
    obtain ⟨c, rest, hE⟩ : ∃ c rest,
        urlencodeL ((p :: ps2).map (fun q => (q.1.data, q.2.data))) = c :: rest := by
      cases hcase : urlencodeL ((p :: ps2).map (fun q => (q.1.data, q.2.data))) with
      | nil => exact absurd hcase hne
      | cons c rest => exact ⟨c, rest, rfl⟩
    have hdata : (urlencode (p :: ps2)).data = c :: rest := hE
    rw [parse_qsl_on_cons _ c rest hdata]
    have hpfree : ∀ piece ∈ ((p :: ps2).map (fun q => (q.1.data, q.2.data))).map
        (fun q => quotePlusL q.1 ++ '=' :: quotePlusL q.2), '&' ∉ piece := by
      intro piece hp hmem
      obtain ⟨q, _, rfl⟩ := List.mem_map.mp hp
      rcases List.mem_append.mp hmem with hm | hm
      · exact (mem_quotePlusL_ne _ _ hm).1 rfl
      · rcases List.mem_cons.mp hm with he | hm2
        · exact absurd he (by decide)
        · exact (mem_quotePlusL_ne _ _ hm2).1 rfl
    have hsplit : splitOnC '&' (urlencode (p :: ps2)).data =
        ((p :: ps2).map (fun q => (q.1.data, q.2.data))).map
          (fun q => quotePlusL q.1 ++ '=' :: quotePlusL q.2) := by
      exact splitOnC_joinAmp _ hpfree (by simp)
    rw [hsplit]
    exact dec_enc_pointwise (p :: ps2) h

/-- json.dumps escaping is the identity on text without quotes and
backslashes. -/
theorem jsonEscape_id (s : List Char) (h : ∀ c ∈ s, c ≠ quoteC ∧ c ≠ backslashC) :
    jsonEscape s = s := by
  induction s with
  | nil => rfl
  | cons c rest ih =>
    have hc := h c (by simp)
    simp [jsonEscape, jsonEscapeChar, hc.1, hc.2, ih (fun x hx => h x (by simp [hx]))]

/-- Parsing a JSON string literal recovers its quote-free content. -/
theorem parseJString_append (k rest : List Char)
    (h : ∀ c ∈ k, c ≠ quoteC ∧ c ≠ backslashC) :
    parseJString (k ++ quoteC :: rest) = some (k, rest) := by
  induction k with
  | nil => simp [parseJString]
  | cons c k2 ih =>
    have hc := h c (by simp)
    simp [parseJString, hc.1, hc.2, ih (fun x hx => h x (by simp [hx]))]

/-- A rendered pair starts with a quote. -/
theorem jsonPairL_head (q : List Char × List Char) :
    jsonPairL q = quoteC :: (jsonEscape q.1 ++ quoteC :: ':' :: ' ' :: jsonStrL q.2) := by
  simp [jsonPairL, jsonStrL, List.append_assoc]

/-- The rendered members are at least as long as the member list. -/
theorem render_length_ge (L : List (List Char × List Char)) :
    L.length ≤ (joinComma (L.map jsonPairL)).length := by
  induction L with
  | nil => simp
  | cons q L2 ih =>
    cases L2 with
    | nil =>
      simp [joinComma, jsonPairL, jsonStrL]
    | cons y ys =>
      simp only [List.map_cons, joinComma, List.length_append, List.length_cons,
        List.length_map] at ih ⊢
      have h1 : 0 ≤ (jsonPairL q).length := Nat.zero_le _
      simp only [jsonPairL_head q, List.length_cons, List.length_append]
      omega

/-- Parsing the rendered members of a nonempty flat object consumes them
up to the closing brace. -/
theorem parsePairs_render (ps : List (List Char × List Char)) :
    ∀ f : Nat,
      (∀ p ∈ ps, (∀ c ∈ p.1, c ≠ quoteC ∧ c ≠ backslashC) ∧
                 (∀ c ∈ p.2, c ≠ quoteC ∧ c ≠ backslashC)) →
      ps ≠ [] → ps.length ≤ f →
      parsePairsAux f (joinComma (ps.map jsonPairL) ++ [rbraceC]) = some (ps, []) := by
  induction ps with
  | nil => intro f _ hne _; exact absurd rfl hne
  | cons p rest ih =>
    intro f hgood _ hf
    obtain ⟨k, v⟩ := p
    have hk := (hgood (k, v) (by simp)).1
    have hv := (hgood (k, v) (by simp)).2
    cases f with
    | zero => simp at hf
    | succ f2 =>
      cases rest with
      | nil =>
        show parsePairsAux (f2 + 1) (joinComma [jsonPairL (k, v)] ++ [rbraceC]) = _
        have hshape : joinComma [jsonPairL (k, v)] ++ [rbraceC] =
            quoteC :: (k ++ quoteC :: ':' :: ' ' :: quoteC :: (v ++ quoteC :: [rbraceC])) := by
          simp [joinComma, jsonPairL, jsonStrL, jsonEscape_id k hk, jsonEscape_id v hv,
            List.append_assoc]
        rw [hshape]
        simp only [parsePairsAux, if_pos,
          parseJString_append k (':' :: ' ' :: quoteC :: (v ++ quoteC :: [rbraceC])) hk,
          parseJString_append v [rbraceC] hv]
      | cons p2 rest2 =>
        have hrest : ∀ p ∈ p2 :: rest2,
            (∀ c ∈ p.1, c ≠ quoteC ∧ c ≠ backslashC) ∧
            (∀ c ∈ p.2, c ≠ quoteC ∧ c ≠ backslashC) :=
          fun p hp => hgood p (List.mem_cons_of_mem _ hp)
        have hlen : (p2 :: rest2).length ≤ f2 := by
          simp only [List.length_cons] at hf ⊢
          omega
        have hshape : joinComma (((k, v) :: p2 :: rest2).map jsonPairL) ++ [rbraceC] =
            quoteC :: (k ++ quoteC :: ':' :: ' ' :: quoteC ::
              (v ++ quoteC :: ',' :: ' ' ::
                (joinComma ((p2 :: rest2).map jsonPairL) ++ [rbraceC]))) := by
          simp [joinComma, jsonPairL, jsonStrL, jsonEscape_id k hk, jsonEscape_id v hv,
            List.append_assoc]
        rw [hshape]
        simp only [parsePairsAux, if_pos,
          parseJString_append k _ hk, parseJString_append v _ hv]
        rw [ih f2 hrest (by simp) hlen]
        have hcomma : ¬(',' = rbraceC) := by decide
        simp [hcomma]

/-- Parsing undoes rendering for whole flat objects. -/
theorem parseJsonObjL_render (L : List (List Char × List Char))
    (hgood : ∀ p ∈ L, (∀ c ∈ p.1, c ≠ quoteC ∧ c ≠ backslashC) ∧
                      (∀ c ∈ p.2, c ≠ quoteC ∧ c ≠ backslashC)) :
    parseJsonObjL (jsonDumpsL L) = some L := by
  cases L with
  | nil => rfl
  | cons q L2 =>
    obtain ⟨t, ht⟩ : ∃ t, joinComma ((q :: L2).map jsonPairL) = quoteC :: t := by
      cases L2 with
      | nil =>
        exact ⟨jsonEscape q.1 ++ quoteC :: ':' :: ' ' :: jsonStrL q.2,
          by simp [joinComma, jsonPairL_head q]⟩
      | cons y ys =>
        refine ⟨(jsonEscape q.1 ++ quoteC :: ':' :: ' ' :: jsonStrL q.2) ++
          ',' :: ' ' :: joinComma ((y :: ys).map jsonPairL), ?_⟩
        simp only [List.map_cons, joinComma]
        rw [jsonPairL_head q]
        simp [List.append_assoc]
    show parseJsonObjL (lbraceC :: joinComma ((q :: L2).map jsonPairL) ++ [rbraceC]) = _
    rw [ht]
    simp only [List.cons_append]
    have hq : ¬(quoteC = rbraceC) := by decide
    simp only [parseJsonObjL, if_pos, hq, if_false]
    rw [show quoteC :: (t ++ [rbraceC]) = (quoteC :: t) ++ [rbraceC] from rfl, ← ht]
    have hlen : (q :: L2).length ≤ (t ++ [rbraceC]).length + 2 := by
      have h1 := render_length_ge (q :: L2)
      rw [ht] at h1
      simp only [List.length_cons, List.length_append] at h1 ⊢
      omega
    rw [parsePairs_render (q :: L2) _ hgood (by simp) hlen]

/-- Rebuilding string pairs from their characters gives the pairs
back. -/
theorem map_mk_data (ps : Params) :
    (ps.map (fun q => (q.1.data, q.2.data))).map
      (fun p => (String.mk p.1, String.mk p.2)) = ps := by
  induction ps with
  | nil => rfl
  | cons q qs ih =>
    obtain ⟨k, v⟩ := q
    simp [string_mk_data, ih]

/-- parse_json_body recovers the mapping json.dumps serialised, for
text without quotes and backslashes. -/
theorem parse_json_body_dumps (ps : Params)
    (h : ∀ p ∈ ps, (∀ c ∈ p.1.data, c ≠ quoteC ∧ c ≠ backslashC) ∧
                   (∀ c ∈ p.2.data, c ≠ quoteC ∧ c ≠ backslashC)) :
    parse_json_body (json_dumps ps) = some ps := by
  have hgood : ∀ p ∈ ps.map (fun q => (q.1.data, q.2.data)),
      (∀ c ∈ p.1, c ≠ quoteC ∧ c ≠ backslashC) ∧
      (∀ c ∈ p.2, c ≠ quoteC ∧ c ≠ backslashC) := by
    intro p hp
    obtain ⟨q, hq, rfl⟩ := List.mem_map.mp hp
    exact h q hq
  show (parseJsonObjL (jsonDumpsL (ps.map (fun q => (q.1.data, q.2.data))))).map _ = _
  rw [parseJsonObjL_render _ hgood]
  exact congrArg some (map_mk_data ps)

/-- C6: with a non-null params mapping, a GET request carries the
urlencoded params as a query string appended to the path and an empty
body, while a POST, PUT or DELETE request carries the params
JSON-serialised in the body with no query string; and both encoded
forms decode back to the identical original mapping (stated for
printable ASCII text without quotes and backslashes, the range the
modelled stdlib coders cover). -/
theorem operation_param_encoding (s : Session) (tr : HttpRequest → HttpOutcome)
    (interface : String) (ps : Params) (version : Option String) (tok m : String)
    (htok : s.access_token = some tok) (hprof : pyTruthyOpt s.profile_id = true)
    (hm : m = "POST" ∨ m = "PUT" ∨ m = "DELETE")
    (hascii : ∀ p ∈ ps, ∀ c ∈ p.1.data ++ p.2.data,
      32 ≤ c.toNat ∧ c.toNat ≤ 126 ∧ c ≠ quoteC ∧ c ≠ backslashC) :
    ((_operation s tr interface (some ps) "GET" version).2.map HttpRequest.url =
       ["https://" ++ s.endpoint ++ versionSeg version ++ "/" ++ interface ++
         ("?" ++ urlencode ps)]
     ∧ (_operation s tr interface (some ps) "GET" version).2.map HttpRequest.body = [none])
  ∧ ((_operation s tr interface (some ps) m version).2.map HttpRequest.url =
       ["https://" ++ s.endpoint ++ versionSeg version ++ "/" ++ interface]
     ∧ (_operation s tr interface (some ps) m version).2.map HttpRequest.body =
       [some (json_dumps ps)])
  ∧ parse_qsl (urlencode ps) = ps
  ∧ parse_json_body (json_dumps ps) = some ps := by
  have hng : ¬(m = "GET") := by
    rcases hm with rfl | rfl | rfl <;> decide
  refine ⟨⟨?_, ?_⟩, ⟨?_, ?_⟩, ?_, ?_⟩
  · simp [_operation, htok, hprof, operationRequest, operationUrl, queryOf,
      String.append_assoc]
  · simp [_operation, htok, hprof, operationRequest]
  · simp [_operation, htok, hprof, operationRequest, operationUrl, hng]
  · simp [_operation, htok, hprof, operationRequest, hng]
  · refine parse_qsl_urlencode ps (fun p hp => ⟨fun c hc => ?_, fun c hc => ?_⟩)
    · have h := hascii p hp c (List.mem_append.mpr (Or.inl hc))
      omega
    · have h := hascii p hp c (List.mem_append.mpr (Or.inr hc))
      omega
  · refine parse_json_body_dumps ps (fun p hp => ⟨fun c hc => ?_, fun c hc => ?_⟩)
    · exact ⟨(hascii p hp c (List.mem_append.mpr (Or.inl hc))).2.2.1,
        (hascii p hp c (List.mem_append.mpr (Or.inl hc))).2.2.2⟩
    · exact ⟨(hascii p hp c (List.mem_append.mpr (Or.inr hc))).2.2.1,
        (hascii p hp c (List.mem_append.mpr (Or.inr hc))).2.2.2⟩

/-- C6 witness: both encodings and both decodings evaluated on the
mapping a maps-to 1, b maps-to 2. -/
theorem operation_param_encoding_witness :
    parse_qsl (urlencode [("a", "1"), ("b", "2")]) = [("a", "1"), ("b", "2")]
  ∧ parse_json_body (json_dumps [("a", "1"), ("b", "2")]) = some [("a", "1"), ("b", "2")]
  ∧ (_operation sGood tr200 "sp/campaigns" (some [("a", "1"), ("b", "2")]) "GET"
      (some "v2")).2.map HttpRequest.url = ["https://api-host/v2/sp/campaigns?a=1&b=2"]
  ∧ (_operation sGood tr200 "sp/campaigns" (some [("a", "1"), ("b", "2")]) "POST"
      (some "v2")).2.map HttpRequest.body = [some (json_dumps [("a", "1"), ("b", "2")])] := by
  have h := operation_param_encoding sGood tr200 "sp/campaigns" [("a", "1"), ("b", "2")]
    (some "v2") "T" "POST" rfl rfl (Or.inl rfl) (by decide)
  refine ⟨h.2.2.1, h.2.2.2, ?_, h.2.1.2⟩
  rw [h.1.1]
  rfl

/-- C7: the Dispatcher composes the request URL as https, host, version
segment, path, with the version segment dropped entirely when the
version is suppressed; and the end-to-end NA-sandbox scenario: the
session built for region NA with sandbox true and the list-campaigns
call produce a single GET request to
https://na-sandbox-host/v2/sp/campaigns carrying the Bearer T
authorization and the P1 scope header (the NA host names are modelled,
regions.py not being under src). -/
theorem operation_url_composition (s : Session) (tr : HttpRequest → HttpOutcome)
    (interface v tok : String)
    (htok : s.access_token = some tok) (hprof : pyTruthyOpt s.profile_id = true) :
    ((_operation s tr interface none "GET" (some v)).2.map HttpRequest.url =
       ["https://" ++ s.endpoint ++ "/" ++ v ++ "/" ++ interface])
  ∧ ((_operation s tr interface none "GET" none).2.map HttpRequest.url =
       ["https://" ++ s.endpoint ++ "/" ++ interface])
  ∧ advertisingApiV3Init "C" "S" "NA" (some "P1") (some "T") none true = some sNA
  ∧ (∀ tr2 : HttpRequest → HttpOutcome,
       list_campaigns sNA tr2 none false =
         (httpOutcomeToResult (tr2 naListCampaignsReq), [naListCampaignsReq]))
  ∧ naListCampaignsReq.url = "https://na-sandbox-host/v2/sp/campaigns"
  ∧ naListCampaignsReq.method = "GET"
  ∧ ("Authorization", "Bearer T") ∈ naListCampaignsReq.headers
  ∧ ("Amazon-Advertising-API-Scope", "P1") ∈ naListCampaignsReq.headers := by
  refine ⟨?_, ?_, rfl, ?_, rfl, rfl, by decide, by decide⟩
  · simp [_operation, htok, hprof, operationRequest, operationUrl, queryOf, versionSeg,
      String.append_empty, String.append_assoc]
  · simp [_operation, htok, hprof, operationRequest, operationUrl, queryOf, versionSeg,
      String.append_empty, String.append_assoc]
  · intro tr2
    rfl

/-- C7 witness: URL composition with and without a version segment
evaluated on a concrete session. -/
theorem operation_url_composition_witness :
    (_operation sGood tr200 "history" none "GET" none).2.map HttpRequest.url =
      ["https://api-host/history"]
  ∧ (_operation sGood tr200 "sp/campaigns" none "GET" (some "v2")).2.map HttpRequest.url =
      ["https://api-host/v2/sp/campaigns"] := by
  have h1 := operation_url_composition sGood tr200 "history" "v2" "T" rfl rfl
  have h2 := operation_url_composition sGood tr200 "sp/campaigns" "v2" "T" rfl rfl
  refine ⟨?_, ?_⟩
  · rw [h1.2.1]
    rfl
  · rw [h2.1]
    rfl

end AmzAdV3
